import Mathlib

/-!
Verification of the `LatexPlotGenerator` class of `src/pytikz.py`
(repository Py2Tikz): a shallow embedding of its data model and string
rendering methods, together with theorems settling the specification
claims about them.

Modelling conventions.
* Python scalar values appear in the output only through `str(...)` (or,
  for a DataFrame, through pandas' own rendering).  A `Value` is therefore
  the already-rendered string of a scalar.
* `dict` and DataFrame columns are insertion-ordered, so both are embedded
  as association lists `List (String × List Value)`.
* Python exceptions become an `Except PyError` result; `TypeError` and
  `ValueError` keep the messages of the source.
* The embedding is pure: methods that only read `self` become functions of
  the `LatexPlotGenerator` record.
-/

/-- The `str(...)` rendering of one scalar value. -/
abbrev Value := String

/-- The accepted (and rejected) shapes of `self.data`:
pandas DataFrame, dict of columns, NumPy 2-D array of rows,
list-of-lists of rows, or anything else (`unsupported`). -/
inductive PyData where
  | dataFrame (cols : List (String × List Value))
  | dict (cols : List (String × List Value))
  | ndarray (rows : List (List Value))
  | pylist (rows : List (List Value))
  | unsupported
deriving DecidableEq

/-- A value of a `**line_options` keyword argument, as discriminated by
`_format_options`: a Python `bool`, `None`, or anything else through the
string it renders to inside `f"{key}={value}"` (the empty string also
covers Python's `value == ""` test). -/
inductive OptValue where
  | bool (b : Bool)
  | none
  | str (s : String)
deriving DecidableEq

/-- One entry of `self.plot_lines`, as appended by `add_plot_line`. -/
structure PlotLine where
  table_x : String
  table_y : String
  legend : String
  options : List (String × OptValue)
  comment : String
deriving DecidableEq

/-- The state of a `LatexPlotGenerator` instance: the constructor
arguments plus the two accumulating fields. -/
structure LatexPlotGenerator where
  data : PyData
  data_filename : String
  latex_filename : String
  header : Option (List String) := Option.none
  axis_options : List (String × String) := []
  plot_lines : List PlotLine := []

/-- The Python exceptions raised by `generate_data_block`. -/
inductive PyError where
  | TypeError (msg : String)
  | ValueError (msg : String)
deriving DecidableEq

/-- Python's `sep.join(parts)`. -/
def joinS (sep : String) : List String → String
  | [] => ""
  | [s] => s
  | s :: rest => s ++ sep ++ joinS sep rest

/-- Recursion core of `pyZip`: Python's `zip(fst, *rest)`, which stops as
soon as any iterator is exhausted. -/
def pyZipGo : List Value → List (List Value) → List (List Value)
  | [], _ => []
  | x :: xs, rest =>
    if rest.any (·.isEmpty) then []
    else (x :: rest.map (·.headI)) :: pyZipGo xs (rest.map (·.tail))

/-- Python's `zip(*ls)` on a list of lists (`zip()` of nothing is empty). -/
def pyZip : List (List Value) → List (List Value)
  | [] => []
  | fst :: rest => pyZipGo fst rest

/-- `add_plot_line(table_x, table_y, legend, comment="", **line_options)`:
appends one dict to `self.plot_lines`. -/
def add_plot_line (g : LatexPlotGenerator) (table_x table_y legend : String)
    (comment : String) (line_options : List (String × OptValue)) :
    LatexPlotGenerator :=
  { g with plot_lines := g.plot_lines ++
      [{ table_x := table_x, table_y := table_y, legend := legend,
         options := line_options, comment := comment }] }

/-- `_format_options(options)`: the early `return ""` on an empty dict,
then the loop appending to `parts` (`bool` checked first, then
`value is None or value == ""`, else `f"{key}={value}"`), then
`", ".join(parts)`. -/
def _format_options (options : List (String × OptValue)) : String :=
  if options.isEmpty then ""
  else
    let parts := options.foldl (fun parts kv =>
      match kv.2 with
      | .bool b => if b then parts ++ [kv.1] else parts
      | .none => parts ++ [kv.1]
      | .str s => if s = "" then parts ++ [kv.1]
                  else parts ++ [kv.1 ++ "=" ++ s]) []
    joinS ", " parts

/-- Modelled from the pandas library (code not in this repository):
`DataFrame.to_csv(sep=' ', index=False)` on a frame of named columns whose
rendered values need no csv quoting: the space-joined header line, then
one space-joined line per row, every line terminated by a newline. -/
def to_csv_space (cols : List (String × List Value)) : String :=
  joinS "" ((joinS " " (cols.map (·.1)) ::
    (pyZip (cols.map (·.2))).map (joinS " ")).map (· ++ "\n"))

/-- The `data_str` computed by `generate_data_block` before wrapping,
or the exception it raises. -/
def data_str_of (g : LatexPlotGenerator) : Except PyError String :=
  match g.data with
  | .dataFrame cols => .ok (to_csv_space cols)
  | .dict cols =>
    let header_line := joinS " " (cols.map (·.1))
    let rows := pyZip (cols.map (·.2))
    let data_lines := joinS "\n" (rows.map (fun row => joinS " " row))
    .ok (header_line ++ "\n" ++ data_lines)
  | .ndarray rows =>
    match g.header with
    | Option.none => .error (.ValueError
        "A header must be provided when data is a numpy array or list-of-lists.")
    | Option.some hdr =>
      let header_line := joinS " " hdr
      let data_lines := joinS "\n" (rows.map (fun row => joinS " " row))
      .ok (header_line ++ "\n" ++ data_lines)
  | .pylist rows =>
    match g.header with
    | Option.none => .error (.ValueError
        "A header must be provided when data is a numpy array or list-of-lists.")
    | Option.some hdr =>
      let header_line := joinS " " hdr
      let data_lines := joinS "\n" (rows.map (fun row => joinS " " row))
      .ok (header_line ++ "\n" ++ data_lines)
  | .unsupported => .error (.TypeError
      "Unsupported data type. Provide a pandas DataFrame, dict, or numpy array/list-of-lists.")

/-- `generate_data_block(self)`: the four-way `isinstance` dispatch
producing `data_str` (or raising), then the return
`f"\\begin\x7b\x7bfilecontents*\x7d\x7d\x7b\x7b{self.data_filename}\x7d\x7d\n{data_str}\n\\end\x7b\x7bfilecontents*\x7d\x7d\n"`. -/
def generate_data_block (g : LatexPlotGenerator) : Except PyError String :=
  match data_str_of g with
  | .error e => .error e
  | .ok data_str => .ok
      ("\\begin\x7bfilecontents*\x7d\x7b" ++ g.data_filename ++ "\x7d\n" ++
       data_str ++ "\n\\end\x7bfilecontents*\x7d\n")

/-- The string appended to `tikz` for one entry of `self.plot_lines`
inside the loop of `generate_tikz_picture`: the comment line when
`line.get("comment")` is truthy (a non-empty string), then the
`\addplot` line, then the `\addlegendentry` line plus blank line. -/
def series_str (data_filename : String) (l : PlotLine) : String :=
  (if l.comment ≠ "" then "    % " ++ l.comment ++ "\n" else "") ++
  ("    \\addplot[" ++ _format_options l.options ++ "] table [x=" ++
    l.table_x ++ ", y=" ++ l.table_y ++ ", col sep=space] \x7b" ++
    data_filename ++ "\x7d;\n") ++
  ("    \\addlegendentry\x7b" ++ l.legend ++ "\x7d;\n\n")

/-- `generate_tikz_picture(self)`: `axis_opts` as
`"\n".join(f"      {k}={v}," ...)`, the opening literal, the loop over
`self.plot_lines` accumulating into `tikz`, and the closing literal. -/
def generate_tikz_picture (g : LatexPlotGenerator) : String :=
  let axis_opts := joinS "\n"
    (g.axis_options.map (fun kv => "      " ++ kv.1 ++ "=" ++ kv.2 ++ ","))
  let tikz :=
    "\\begin\x7bfigure\x7d[H]\n" ++
    "\\centering\n" ++
    "\\begin\x7btikzpicture\x7d\n" ++
    "\\centering\n" ++
    "  \\begin\x7baxis\x7d[\n" ++
    axis_opts ++ "\n" ++
    "    ]\n"
  let tikz := g.plot_lines.foldl (fun acc l => acc ++ series_str g.data_filename l) tikz
  tikz ++
    "  \\end\x7baxis\x7d\n" ++
    "\\end\x7btikzpicture\x7d\n" ++
    "\\end\x7bfigure\x7d\n"

/-- `generate_latex_code(self)`:
`self.generate_data_block() + "\n" + self.generate_tikz_picture()`,
propagating the exception of the data block. -/
def generate_latex_code (g : LatexPlotGenerator) : Except PyError String :=
  match generate_data_block g with
  | .error e => .error e
  | .ok data_block => .ok (data_block ++ "\n" ++ generate_tikz_picture g)

/-- `save(self)`: compute `generate_latex_code()` first, then open
`self.latex_filename` and write the code.  The file system is a list of
(name, contents) pairs, most recent first; an exception leaves it
untouched because the open happens after the code is built. -/
def save (g : LatexPlotGenerator) (fs : List (String × String)) :
    Except PyError Unit × List (String × String) :=
  match generate_latex_code g with
  | .error e => (.error e, fs)
  | .ok latex_code => (.ok (), (g.latex_filename, latex_code) :: fs)

/-! ### Text analysis helpers: lines, words, and clean strings -/

/-- The lines of a string: its characters split on the newline character
(the inverse view of how the generator assembles its output). -/
def linesOf (s : String) : List String := (s.toList.splitOn '\n').map String.mk

/-- The space-separated tokens of a single line. -/
def wordsOf (s : String) : List String := (s.toList.splitOn ' ').map String.mk

/-- `s` does not contain the character `c`. -/
def noChar (c : Char) (s : String) : Prop := c ∉ s.toList

instance (c : Char) (s : String) : Decidable (noChar c s) :=
  inferInstanceAs (Decidable (c ∉ s.toList))

/-- The number of non-empty lines of a string. -/
def neLineCount (s : String) : Nat :=
  ((linesOf s).filter (fun l => !(l == ""))).length

/-- A newline-terminated block of lines, as the generator emits them. -/
def unlines : List String → String
  | [] => ""
  | l :: ls => l ++ "\n" ++ unlines ls

theorem toList_append (a b : String) : (a ++ b).toList = a.toList ++ b.toList :=
  String.data_append a b

theorem toList_mk (l : List Char) : (String.mk l).toList = l := rfl

theorem mk_toList (s : String) : String.mk s.toList = s := by
  cases s; rfl

theorem toList_inj {a b : String} (h : a.toList = b.toList) : a = b :=
  String.ext h

theorem toList_eq_nil {s : String} : s.toList = [] ↔ s = "" := by
  constructor
  · intro h; have := mk_toList s; rw [h] at this; exact this.symm
  · intro h; rw [h]; rfl

theorem joinS_cons (sep : String) (a : String) (L : List String) (h : L ≠ []) :
    joinS sep (a :: L) = a ++ sep ++ joinS sep L := by
  cases L with
  | nil => exact absurd rfl h
  | cons b rest => rfl

theorem joinS_append (sep : String) (A B : List String) (hA : A ≠ []) (hB : B ≠ []) :
    joinS sep (A ++ B) = joinS sep A ++ sep ++ joinS sep B := by
  induction A with
  | nil => exact absurd rfl hA
  | cons a rest ih =>
    cases rest with
    | nil =>
      simp only [List.singleton_append, joinS]
    | cons b rest' =>
      have h1 : (b :: rest') ++ B ≠ [] := by simp
      have h2 : (b :: rest') ≠ [] := by simp
      rw [List.cons_append, joinS_cons sep a _ h1, joinS_cons sep a _ h2,
        ih h2]
      apply toList_inj
      simp only [toList_append, List.append_assoc]

theorem noChar_append {c : Char} {a b : String} :
    noChar c (a ++ b) ↔ noChar c a ∧ noChar c b := by
  simp [noChar, toList_append, not_or]

theorem noChar_joinS {c : Char} {sep : String} (hsep : noChar c sep)
    {L : List String} (h : ∀ s ∈ L, noChar c s) : noChar c (joinS sep L) := by
  induction L with
  | nil => simp [joinS, noChar]
  | cons a rest ih =>
    cases rest with
    | nil => exact h a (by simp)
    | cons b rest' =>
      rw [joinS_cons _ _ _ (by simp)]
      rw [noChar_append, noChar_append]
      exact ⟨⟨h a (by simp), hsep⟩,
        ih (fun s hs => h s (List.mem_cons_of_mem a hs))⟩

theorem joinS_ne_empty {sep : String} {L : List String} (hL : L ≠ [])
    (h : ∀ x ∈ L, x ≠ "") : joinS sep L ≠ "" := by
  cases L with
  | nil => exact absurd rfl hL
  | cons a rest =>
    cases rest with
    | nil => exact h a (by simp)
    | cons b rest' =>
      rw [joinS_cons _ _ _ (by simp)]
      intro hemp
      have : (a ++ sep ++ joinS sep (b :: rest')).toList = [] := by
        rw [hemp]; rfl
      rw [toList_append, toList_append, List.append_assoc,
        List.append_eq_nil] at this
      exact h a (by simp) (toList_eq_nil.mp this.1)

theorem append_ne_empty_left {a : String} (b : String) (h : a ≠ "") :
    a ++ b ≠ "" := by
  intro hemp
  have : (a ++ b).toList = [] := by rw [hemp]; rfl
  rw [toList_append, List.append_eq_nil] at this
  exact h (toList_eq_nil.mp this.1)

/-- Splitting the join of clean parts on the separator recovers the parts
(character-list form). -/
theorem splitOn_joinS (c : Char) (sep : String) (hc : sep.toList = [c])
    (L : List String) (hne : L ≠ []) (h : ∀ s ∈ L, c ∉ s.toList) :
    (joinS sep L).toList.splitOn c = L.map String.toList := by
  induction L with
  | nil => exact absurd rfl hne
  | cons a rest ih =>
    cases rest with
    | nil =>
      simp only [joinS, List.map]
      rw [List.splitOn]
      exact List.splitOnP_eq_single _ _
        (fun x hx => by
          simp only [beq_iff_eq]
          exact fun heq => h a (by simp) (heq ▸ hx))
    | cons b rest' =>
      rw [joinS_cons _ _ _ (by simp), toList_append, toList_append, hc,
        List.append_assoc, List.singleton_append]
      rw [List.splitOn]
      rw [List.splitOnP_first _ _
        (fun x hx => by
          simp only [beq_iff_eq]
          exact fun heq => h a (by simp) (heq ▸ hx))
        c (by simp)]
      rw [← List.splitOn]
      rw [ih (by simp) (fun s hs => h s (List.mem_cons_of_mem a hs))]
      rfl

theorem append_empty (s : String) : s ++ "" = s := by
  apply toList_inj
  rw [toList_append]
  simp [toList_eq_nil.mpr rfl]

theorem unlines_append (A B : List String) :
    unlines (A ++ B) = unlines A ++ unlines B := by
  induction A with
  | nil =>
    simp only [List.nil_append, unlines]
    apply toList_inj
    rw [toList_append]
    simp [toList_eq_nil.mpr rfl]
  | cons a rest ih =>
    show a ++ "\n" ++ unlines (rest ++ B) = a ++ "\n" ++ unlines rest ++ unlines B
    rw [ih]
    apply toList_inj
    simp only [toList_append, List.append_assoc]

theorem unlines_eq_joinS {L : List String} (h : L ≠ []) :
    unlines L = joinS "\n" L ++ "\n" := by
  induction L with
  | nil => exact absurd rfl h
  | cons a rest ih =>
    cases rest with
    | nil =>
      show a ++ "\n" ++ unlines [] = joinS "\n" [a] ++ "\n"
      simp only [unlines, joinS]
      rw [append_empty]
    | cons b rest' =>
      show a ++ "\n" ++ unlines (b :: rest') = joinS "\n" (a :: b :: rest') ++ "\n"
      rw [ih (by simp), joinS_cons "\n" a (b :: rest') (by simp)]
      apply toList_inj
      simp only [toList_append, List.append_assoc]

theorem joinS_append_newline_eq_unlines (L : List String) :
    joinS "\n" (L ++ [""]) = unlines L := by
  cases L with
  | nil => rfl
  | cons a rest =>
    rw [unlines_eq_joinS (by simp),
      joinS_append "\n" (a :: rest) [""] (by simp) (by simp)]
    show _ = _ ++ "\n"
    simp only [joinS]
    rw [append_empty]

theorem joinS_map_append_newline (L : List String) :
    joinS "" (L.map (· ++ "\n")) = unlines L := by
  induction L with
  | nil => rfl
  | cons a rest ih =>
    cases rest with
    | nil =>
      show a ++ "\n" = a ++ "\n" ++ unlines []
      simp only [unlines]
      rw [append_empty]
    | cons b rest' =>
      rw [List.map_cons, joinS_cons _ _ _ (by simp), append_empty, ih]
      rfl

/-- The characters of a join are the intercalation of the parts. -/
theorem toList_joinS (sep : String) (L : List String) :
    (joinS sep L).toList = List.intercalate sep.toList (L.map String.toList) := by
  induction L with
  | nil => rfl
  | cons a rest ih =>
    cases rest with
    | nil => simp [joinS, List.intercalate]
    | cons b rest' =>
      rw [joinS_cons _ _ _ (by simp), toList_append, toList_append, ih]
      simp only [List.map_cons, List.intercalate, List.intersperse_cons_cons,
        List.flatten_cons, List.append_assoc]

/-- Splitting a join of newline-free lines on the newline recovers the lines. -/
theorem linesOf_joinS {L : List String} (hne : L ≠ [])
    (h : ∀ s ∈ L, noChar '\n' s) : linesOf (joinS "\n" L) = L := by
  unfold linesOf
  rw [splitOn_joinS '\n' "\n" rfl L hne h, List.map_map]
  exact List.map_congr_left (fun s _ => mk_toList s) |>.trans (List.map_id L)

/-- The lines of a newline-terminated block: the block's lines plus the
empty fragment after the final newline. -/
theorem linesOf_unlines {L : List String} (h : ∀ s ∈ L, noChar '\n' s) :
    linesOf (unlines L) = L ++ [""] := by
  rw [← joinS_append_newline_eq_unlines]
  apply linesOf_joinS (by simp)
  intro s hs
  rcases List.mem_append.mp hs with h1 | h2
  · exact h s h1
  · simp only [List.mem_singleton] at h2
    subst h2
    intro hmem
    simp [noChar] at hmem

/-- Re-joining the space-split tokens of any line reproduces the line. -/
theorem joinS_wordsOf (l : String) : joinS " " (wordsOf l) = l := by
  apply toList_inj
  rw [toList_joinS, wordsOf, List.map_map]
  have : (List.map (String.toList ∘ String.mk) (l.toList.splitOn ' ')) =
      l.toList.splitOn ' ' := by
    exact (List.map_congr_left (fun x _ => rfl)).trans
      (List.map_id (l.toList.splitOn ' '))
  rw [this]
  exact List.intercalate_splitOn l.toList ' '

/-- Splitting the space-join of space-free tokens recovers the tokens. -/
theorem wordsOf_joinS {L : List String} (hne : L ≠ [])
    (h : ∀ s ∈ L, noChar ' ' s) : wordsOf (joinS " " L) = L := by
  unfold wordsOf
  rw [splitOn_joinS ' ' " " rfl L hne h, List.map_map]
  exact List.map_congr_left (fun s _ => mk_toList s) |>.trans (List.map_id L)

/-! ### Rows produced by the dict branch: `zip(*columns)` -/

/-- On equal-length columns, `zip(fst, *rest)` produces one row per index,
each row reading one entry from every column. -/
theorem pyZipGo_eq (fst : List Value) :
    ∀ (rest : List (List Value)), (∀ l ∈ rest, l.length = fst.length) →
    pyZipGo fst rest = (List.range fst.length).map
      (fun i => fst.getD i "" :: rest.map (fun l => l.getD i "")) := by
  induction fst with
  | nil => intro rest _; simp [pyZipGo]
  | cons x xs ih =>
    intro rest h
    have hne : ∀ l ∈ rest, l ≠ [] := by
      intro l hl hnil
      have hlen := h l hl
      rw [hnil] at hlen
      simp at hlen
    have hno : rest.any (·.isEmpty) = false := by
      rw [List.any_eq_false]
      intro l hl
      cases l with
      | nil => exact absurd rfl (hne [] hl)
      | cons y ys => simp [List.isEmpty]
    have step : pyZipGo (x :: xs) rest =
        (x :: rest.map (·.headI)) :: pyZipGo xs (rest.map (·.tail)) := by
      show (if rest.any (·.isEmpty) then [] else _) = _
      rw [if_neg (by simp [hno])]
    have hlen : ∀ l ∈ rest.map (·.tail), l.length = xs.length := by
      intro l hl
      obtain ⟨l', hl', rfl⟩ := List.mem_map.mp hl
      have hl2 := h l' hl'
      cases l' with
      | nil => exact absurd rfl (hne [] hl')
      | cons y ys => simp at hl2 ⊢; omega
    rw [step, ih (rest.map (·.tail)) hlen]
    rw [List.length_cons, List.range_succ_eq_map, List.map_cons, List.map_map]
    congr 1
    · show x :: rest.map (·.headI) = x :: rest.map (fun l => l.getD 0 "")
      congr 1
      apply List.map_congr_left
      intro l hl
      cases l with
      | nil => exact absurd rfl (hne [] hl)
      | cons y ys => rfl
    · apply List.map_congr_left
      intro i _
      show xs.getD i "" :: (rest.map (·.tail)).map (fun l => l.getD i "") =
        (x :: xs).getD (i+1) "" :: rest.map (fun l => l.getD (i+1) "")
      rw [List.map_map]
      congr 1
      apply List.map_congr_left
      intro l hl
      cases l with
      | nil => exact absurd rfl (hne [] hl)
      | cons y ys => rfl

/-- `zip(*cols)` on a non-empty set of equal-length columns. -/
theorem pyZip_eq {cols : List (List Value)} {n : Nat} (hne : cols ≠ [])
    (h : ∀ l ∈ cols, l.length = n) :
    pyZip cols = (List.range n).map (fun i => cols.map (fun l => l.getD i "")) := by
  cases cols with
  | nil => exact absurd rfl hne
  | cons fst rest =>
    have hfst : fst.length = n := h fst (by simp)
    show pyZipGo fst rest = _
    rw [pyZipGo_eq fst rest
      (fun l hl => (h l (List.mem_cons_of_mem fst hl)).trans hfst.symm), hfst]
    apply List.map_congr_left
    intro i _
    rfl

/-! ### Line-level decomposition of the data block -/

/-- The opening `filecontents*` line of the data block. -/
def begin_line (fname : String) : String :=
  "\\begin\x7bfilecontents*\x7d\x7b" ++ fname ++ "\x7d"

/-- The closing `filecontents*` line of the data block. -/
def end_line : String := "\\end\x7bfilecontents*\x7d"

theorem toList_empty : ("" : String).toList = [] := rfl

/-- The lines of `data_str` for a header line and row lines, as the dict,
array and list branches assemble them (`header + "\n" + "\n".join(rows)`):
an empty row set leaves a final empty line. -/
def listing_lines (hdr : String) (rowlines : List String) : List String :=
  hdr :: (if rowlines = [] then [""] else rowlines)

theorem data_str_listing (hdr : String) (rowlines : List String) :
    hdr ++ "\n" ++ joinS "\n" rowlines = joinS "\n" (listing_lines hdr rowlines) := by
  unfold listing_lines
  cases rowlines with
  | nil => rfl
  | cons r rs =>
    rw [if_neg (by simp)]
    rw [joinS_cons "\n" hdr (r :: rs) (by simp)]

/-- A successful `generate_data_block` wrapper as a line block. -/
theorem wrap_eq (f ds : String) (D : List String) (h : ds = joinS "\n" D)
    (hne : D ≠ []) :
    "\\begin\x7bfilecontents*\x7d\x7b" ++ f ++ "\x7d\n" ++ ds ++
      "\n\\end\x7bfilecontents*\x7d\n"
    = unlines (begin_line f :: D ++ [end_line]) := by
  subst h
  have hsplit : begin_line f :: D ++ [end_line] =
      ([begin_line f] ++ D) ++ [end_line] := by simp
  rw [hsplit, unlines_append, unlines_append, unlines_eq_joinS hne]
  apply toList_inj
  simp only [begin_line, end_line, unlines, toList_append, toList_empty,
    List.append_assoc, List.append_nil, List.nil_append]
  have e1 : ("\x7d\n" : String).toList = "\x7d".toList ++ "\n".toList := rfl
  have e2 : ("\n\\end\x7bfilecontents*\x7d\n" : String).toList =
      "\n".toList ++ "\\end\x7bfilecontents*\x7d".toList ++ "\n".toList := rfl
  rw [e1, e2]
  simp only [List.append_assoc]

/-- The listing lines (between the wrapper lines) of the data block, per
accepted data shape; `none` when `generate_data_block` raises. -/
def data_listing (g : LatexPlotGenerator) : Option (List String) :=
  match g.data with
  | .dataFrame cols =>
      Option.some (joinS " " (cols.map (·.1)) ::
        (pyZip (cols.map (·.2))).map (fun row => joinS " " row) ++ [""])
  | .dict cols =>
      Option.some (listing_lines (joinS " " (cols.map (·.1)))
        ((pyZip (cols.map (·.2))).map (fun row => joinS " " row)))
  | .ndarray rows =>
      g.header.map (fun hdr => listing_lines (joinS " " hdr)
        (rows.map (fun row => joinS " " row)))
  | .pylist rows =>
      g.header.map (fun hdr => listing_lines (joinS " " hdr)
        (rows.map (fun row => joinS " " row)))
  | .unsupported => Option.none

/-- A successful `generate_data_block` is the newline-terminated block of
the begin line, its listing lines, and the end line. -/
theorem generate_data_block_eq (g : LatexPlotGenerator) (D : List String)
    (hD : data_listing g = Option.some D) :
    generate_data_block g =
      .ok (unlines (begin_line g.data_filename :: D ++ [end_line])) := by
  cases hdata : g.data with
  | dataFrame cols =>
    simp only [data_listing, hdata, Option.some.injEq] at hD
    simp only [generate_data_block, data_str_of, hdata]
    rw [← hD]
    congr 1
    apply wrap_eq
    · rw [to_csv_space, joinS_map_append_newline, ← joinS_append_newline_eq_unlines]
    · simp
  | dict cols =>
    simp only [data_listing, hdata, Option.some.injEq] at hD
    simp only [generate_data_block, data_str_of, hdata]
    rw [← hD]
    congr 1
    apply wrap_eq
    · exact data_str_listing _ _
    · simp [listing_lines]
  | ndarray rows =>
    simp only [data_listing, hdata] at hD
    cases hh : g.header with
    | none => rw [hh] at hD; exact Option.noConfusion hD
    | some hdr =>
      rw [hh] at hD
      simp only [Option.map_some', Option.some.injEq] at hD
      simp only [generate_data_block, data_str_of, hdata, hh]
      rw [← hD]
      congr 1
      apply wrap_eq
      · exact data_str_listing _ _
      · simp [listing_lines]
  | pylist rows =>
    simp only [data_listing, hdata] at hD
    cases hh : g.header with
    | none => rw [hh] at hD; exact Option.noConfusion hD
    | some hdr =>
      rw [hh] at hD
      simp only [Option.map_some', Option.some.injEq] at hD
      simp only [generate_data_block, data_str_of, hdata, hh]
      rw [← hD]
      congr 1
      apply wrap_eq
      · exact data_str_listing _ _
      · simp [listing_lines]
  | unsupported => simp [data_listing, hdata] at hD

/-- The lines of a successful data block. -/
theorem linesOf_data_block (g : LatexPlotGenerator) (D : List String)
    (hD : data_listing g = Option.some D)
    (hclean : ∀ l ∈ D, noChar '\n' l) (hf : noChar '\n' g.data_filename) :
    ∃ s, generate_data_block g = .ok s ∧
      linesOf s = begin_line g.data_filename :: D ++ [end_line, ""] := by
  have hcl : ∀ l ∈ (begin_line g.data_filename :: D ++ [end_line]), noChar '\n' l := by
    intro l hl
    rcases List.mem_cons.mp hl with h1 | h2
    · subst h1
      unfold begin_line
      rw [noChar_append, noChar_append]
      exact ⟨⟨by decide, hf⟩, by decide⟩
    · rcases List.mem_append.mp h2 with h3 | h4
      · exact hclean l h3
      · simp only [List.mem_singleton] at h4
        subst h4
        decide
  refine ⟨_, generate_data_block_eq g D hD, ?_⟩
  rw [linesOf_unlines hcl]
  simp

/-! ### Line-level decomposition of the tikzpicture block -/

/-- One axis-options line: `f"      {k}={v},"`. -/
def axis_line (kv : String × String) : String :=
  "      " ++ kv.1 ++ "=" ++ kv.2 ++ ","

/-- One series comment line: `f"    % {comment}"`. -/
def comment_line (c : String) : String := "    % " ++ c

/-- One series `\addplot` command line. -/
def plot_cmd_line (fname : String) (l : PlotLine) : String :=
  "    \\addplot[" ++ _format_options l.options ++ "] table [x=" ++
    l.table_x ++ ", y=" ++ l.table_y ++ ", col sep=space] \x7b" ++
    fname ++ "\x7d;"

/-- One series `\addlegendentry` line. -/
def legend_line (l : PlotLine) : String :=
  "    \\addlegendentry\x7b" ++ l.legend ++ "\x7d;"

/-- The lines one series contributes: optional comment, plot command,
legend entry, blank separator. -/
def series_lines (fname : String) (l : PlotLine) : List String :=
  (if l.comment = "" then [] else [comment_line l.comment]) ++
  [plot_cmd_line fname l, legend_line l, ""]

/-- The fixed lines before the axis-options section. -/
def tikz_head_lines : List String :=
  ["\\begin\x7bfigure\x7d[H]", "\\centering", "\\begin\x7btikzpicture\x7d",
   "\\centering", "  \\begin\x7baxis\x7d["]

/-- The lines of the axis-options section: one `key=value,` line per
entry; an empty mapping still leaves one blank line (the joined empty
string followed by the newline the template always inserts). -/
def axis_lines (opts : List (String × String)) : List String :=
  if opts = [] then [""] else opts.map axis_line

/-- The fixed closing lines. -/
def tikz_tail_lines : List String :=
  ["  \\end\x7baxis\x7d", "\\end\x7btikzpicture\x7d", "\\end\x7bfigure\x7d"]

/-- All lines of `generate_tikz_picture`. -/
def tikz_lines (g : LatexPlotGenerator) : List String :=
  tikz_head_lines ++ axis_lines g.axis_options ++ ["    ]"] ++
  (g.plot_lines.map (series_lines g.data_filename)).flatten ++ tikz_tail_lines

/-- The loop body string of one series is its line block. -/
theorem series_str_eq (fname : String) (l : PlotLine) :
    series_str fname l = unlines (series_lines fname l) := by
  by_cases h : l.comment = ""
  · rw [series_str, if_neg (by simp [h]), series_lines, if_pos h]
    apply toList_inj
    have e1 : ("\x7d;\n" : String).toList = "\x7d;".toList ++ "\n".toList := rfl
    have e2 : ("\x7d;\n\n" : String).toList =
        "\x7d;".toList ++ "\n".toList ++ "\n".toList := rfl
    simp only [unlines, plot_cmd_line, legend_line, toList_append, toList_empty,
      e1, e2, List.append_assoc, List.append_nil, List.nil_append]
  · rw [series_str, if_pos h, series_lines, if_neg h]
    apply toList_inj
    have e1 : ("\x7d;\n" : String).toList = "\x7d;".toList ++ "\n".toList := rfl
    have e2 : ("\x7d;\n\n" : String).toList =
        "\x7d;".toList ++ "\n".toList ++ "\n".toList := rfl
    simp only [unlines, plot_cmd_line, legend_line, comment_line, toList_append,
      toList_empty, e1, e2, List.append_assoc, List.append_nil,
      List.nil_append, List.singleton_append]

/-- The accumulation loop over `self.plot_lines` appends the series
blocks to the accumulator. -/
theorem foldl_series (fname : String) (L : List PlotLine) (init : String) :
    L.foldl (fun acc l => acc ++ series_str fname l) init =
    init ++ unlines ((L.map (series_lines fname)).flatten) := by
  induction L generalizing init with
  | nil =>
    simp only [List.foldl_nil, List.map_nil, List.flatten_nil, unlines]
    rw [append_empty]
  | cons l rest ih =>
    simp only [List.foldl_cons, List.map_cons, List.flatten_cons]
    rw [ih, unlines_append, ← series_str_eq]
    apply toList_inj
    simp only [toList_append, List.append_assoc]

/-- `generate_tikz_picture` is exactly the newline-terminated block of
`tikz_lines`. -/
theorem generate_tikz_picture_eq (g : LatexPlotGenerator) :
    generate_tikz_picture g = unlines (tikz_lines g) := by
  have eaxis : (unlines (axis_lines g.axis_options)).toList =
      (joinS "\n" (g.axis_options.map
        (fun kv => "      " ++ kv.1 ++ "=" ++ kv.2 ++ ","))).toList ++
      "\n".toList := by
    by_cases h : g.axis_options = []
    · rw [axis_lines, if_pos h, h]
      rfl
    · rw [axis_lines, if_neg h,
        unlines_eq_joinS (by
          intro hmap
          exact h (List.map_eq_nil_iff.mp hmap)),
        toList_append]
      rfl
  simp only [generate_tikz_picture]
  rw [foldl_series]
  apply toList_inj
  simp only [tikz_lines, tikz_head_lines, tikz_tail_lines, List.append_eq,
    unlines_append, unlines, toList_append, toList_empty, List.append_assoc,
    List.append_nil, List.nil_append, eaxis]
  have e1 : ("\\begin\x7bfigure\x7d[H]\n" : String).toList =
      "\\begin\x7bfigure\x7d[H]".toList ++ "\n".toList := rfl
  have e2 : ("\\centering\n" : String).toList =
      "\\centering".toList ++ "\n".toList := rfl
  have e3 : ("\\begin\x7btikzpicture\x7d\n" : String).toList =
      "\\begin\x7btikzpicture\x7d".toList ++ "\n".toList := rfl
  have e4 : ("  \\begin\x7baxis\x7d[\n" : String).toList =
      "  \\begin\x7baxis\x7d[".toList ++ "\n".toList := rfl
  have e5 : ("    ]\n" : String).toList = "    ]".toList ++ "\n".toList := rfl
  have e6 : ("  \\end\x7baxis\x7d\n" : String).toList =
      "  \\end\x7baxis\x7d".toList ++ "\n".toList := rfl
  have e7 : ("\\end\x7btikzpicture\x7d\n" : String).toList =
      "\\end\x7btikzpicture\x7d".toList ++ "\n".toList := rfl
  have e8 : ("\\end\x7bfigure\x7d\n" : String).toList =
      "\\end\x7bfigure\x7d".toList ++ "\n".toList := rfl
  simp only [e1, e2, e3, e4, e5, e6, e7, e8, List.append_assoc]

/-! ### Newline-free inputs give one output line per logical line -/

/-- A `**line_options` value rendered into the options string contains
no newline. -/
def optValClean : OptValue → Prop
  | OptValue.bool _ => True
  | OptValue.none => True
  | OptValue.str s => noChar '\n' s

instance : (v : OptValue) → Decidable (optValClean v)
  | OptValue.bool _ => isTrue trivial
  | OptValue.none => isTrue trivial
  | OptValue.str s => inferInstanceAs (Decidable (noChar '\n' s))

/-- The strings of a `**line_options` bag contain no newline. -/
def CleanOpt (options : List (String × OptValue)) : Prop :=
  ∀ kv ∈ options, noChar '\n' kv.1 ∧ optValClean kv.2

instance (options : List (String × OptValue)) : Decidable (CleanOpt options) :=
  inferInstanceAs (Decidable (∀ kv ∈ options, noChar '\n' kv.1 ∧ optValClean kv.2))

/-- The strings of one plot line contain no newline. -/
def CleanPlotLine (l : PlotLine) : Prop :=
  noChar '\n' l.table_x ∧ noChar '\n' l.table_y ∧ noChar '\n' l.legend ∧
  noChar '\n' l.comment ∧ CleanOpt l.options

instance (l : PlotLine) : Decidable (CleanPlotLine l) :=
  inferInstanceAs (Decidable (noChar '\n' l.table_x ∧ noChar '\n' l.table_y ∧
    noChar '\n' l.legend ∧ noChar '\n' l.comment ∧ CleanOpt l.options))

/-- The chart-side strings of a generator contain no newline. -/
def CleanChart (g : LatexPlotGenerator) : Prop :=
  (∀ kv ∈ g.axis_options, noChar '\n' kv.1 ∧ noChar '\n' kv.2) ∧
  (∀ l ∈ g.plot_lines, CleanPlotLine l) ∧ noChar '\n' g.data_filename

theorem format_options_clean {options : List (String × OptValue)}
    (h : CleanOpt options) : noChar '\n' (_format_options options) := by
  have main : ∀ (opts : List (String × OptValue)), CleanOpt opts →
      ∀ (acc : List String), (∀ x ∈ acc, noChar '\n' x) →
      ∀ x ∈ opts.foldl (fun parts kv =>
        match kv.2 with
        | .bool b => if b then parts ++ [kv.1] else parts
        | .none => parts ++ [kv.1]
        | .str s => if s = "" then parts ++ [kv.1]
                    else parts ++ [kv.1 ++ "=" ++ s]) acc, noChar '\n' x := by
    intro opts
    induction opts with
    | nil => intro _ acc hacc x hx; exact hacc x hx
    | cons kv rest ih =>
      intro hco acc hacc x hx
      have hkv := hco kv (by simp)
      have hrest : CleanOpt rest := fun a ha => hco a (List.mem_cons_of_mem kv ha)
      simp only [List.foldl_cons] at hx
      refine ih hrest _ ?_ x hx
      intro y hy
      split at hy
      · split at hy
        · rcases List.mem_append.mp hy with h1 | h2
          · exact hacc y h1
          · simp only [List.mem_singleton] at h2; subst h2; exact hkv.1
        · exact hacc y hy
      · rcases List.mem_append.mp hy with h1 | h2
        · exact hacc y h1
        · simp only [List.mem_singleton] at h2; subst h2; exact hkv.1
      · next s heq =>
        split at hy
        · rcases List.mem_append.mp hy with h1 | h2
          · exact hacc y h1
          · simp only [List.mem_singleton] at h2; subst h2; exact hkv.1
        · rcases List.mem_append.mp hy with h1 | h2
          · exact hacc y h1
          · simp only [List.mem_singleton] at h2
            subst h2
            simp only [noChar_append]
            refine ⟨⟨hkv.1, by decide⟩, ?_⟩
            have hv := hkv.2
            rw [heq] at hv
            exact hv
  simp only [_format_options]
  by_cases he : options.isEmpty
  · rw [if_pos he]; decide
  · rw [if_neg he]
    exact noChar_joinS (by decide) (main options h [] (by simp))

theorem tikz_lines_clean (g : LatexPlotGenerator) (hc : CleanChart g) :
    ∀ l ∈ tikz_lines g, noChar '\n' l := by
  obtain ⟨hax, hpl, hf⟩ := hc
  intro l hl
  simp only [tikz_lines, List.append_assoc, List.mem_append] at hl
  rcases hl with h1 | h2 | h3 | h4 | h5
  · simp only [tikz_head_lines] at h1
    fin_cases h1 <;> decide
  · rw [axis_lines] at h2
    by_cases he : g.axis_options = []
    · rw [if_pos he] at h2
      fin_cases h2
      decide
    · rw [if_neg he] at h2
      obtain ⟨kv, hkv, rfl⟩ := List.mem_map.mp h2
      have hv := hax kv hkv
      simp only [axis_line, noChar_append]
      exact ⟨⟨⟨⟨by decide, hv.1⟩, by decide⟩, hv.2⟩, by decide⟩
  · simp only [List.mem_singleton] at h3; subst h3; decide
  · obtain ⟨ls, hls, hmem⟩ := List.mem_flatten.mp h4
    obtain ⟨pl, hpl2, rfl⟩ := List.mem_map.mp hls
    have hcp := hpl pl hpl2
    simp only [series_lines, List.mem_append, List.mem_cons] at hmem
    rcases hmem with hcm | hm
    · by_cases hce : pl.comment = ""
      · rw [if_pos hce] at hcm; simp at hcm
      · rw [if_neg hce] at hcm
        have hq := List.mem_singleton.mp hcm
        subst hq
        simp only [comment_line, noChar_append]
        exact ⟨by decide, hcp.2.2.2.1⟩
    · rcases hm with rfl | rfl | rfl | h0
      · simp only [plot_cmd_line, noChar_append]
        exact ⟨⟨⟨⟨⟨⟨⟨⟨by decide, format_options_clean hcp.2.2.2.2⟩, by decide⟩,
          hcp.1⟩, by decide⟩, hcp.2.1⟩, by decide⟩, hf⟩, by decide⟩
      · simp only [legend_line, noChar_append]
        exact ⟨⟨by decide, hcp.2.2.1⟩, by decide⟩
      · decide
      · exact absurd h0 (List.not_mem_nil l)
  · simp only [tikz_tail_lines] at h5
    fin_cases h5 <;> decide

/-- The lines of the chart block. -/
theorem linesOf_tikz (g : LatexPlotGenerator) (hc : CleanChart g) :
    linesOf (generate_tikz_picture g) = tikz_lines g ++ [""] := by
  rw [generate_tikz_picture_eq, linesOf_unlines (tikz_lines_clean g hc)]

/-! ### Dataset shape and cleanliness -/

/-- The column names of a dataset: the frame/dict keys, or the
externally supplied header for the row-major shapes. -/
def namesOf (g : LatexPlotGenerator) : List String :=
  match g.data with
  | .dataFrame cols => cols.map (·.1)
  | .dict cols => cols.map (·.1)
  | _ => g.header.getD []

/-- All scalar values of a dataset. -/
def valuesOf (g : LatexPlotGenerator) : List Value :=
  match g.data with
  | .dataFrame cols => (cols.map (·.2)).flatten
  | .dict cols => (cols.map (·.2)).flatten
  | .ndarray rows => rows.flatten
  | .pylist rows => rows.flatten
  | .unsupported => []

/-- The dataset has `K` columns and `N` rows (with a header present for
the row-major shapes). -/
def Shaped (g : LatexPlotGenerator) (K N : Nat) : Prop :=
  match g.data with
  | .dataFrame cols => cols.length = K ∧ ∀ kv ∈ cols, kv.2.length = N
  | .dict cols => cols.length = K ∧ ∀ kv ∈ cols, kv.2.length = N
  | .ndarray rows =>
      g.header ≠ Option.none ∧ (g.header.getD []).length = K ∧
      rows.length = N ∧ ∀ r ∈ rows, r.length = K
  | .pylist rows =>
      g.header ≠ Option.none ∧ (g.header.getD []).length = K ∧
      rows.length = N ∧ ∀ r ∈ rows, r.length = K
  | .unsupported => False

/-- Names are non-empty, space-free and newline-free; values are
non-empty and newline-free; the data filename is newline-free. -/
def CleanData (g : LatexPlotGenerator) : Prop :=
  (∀ nm ∈ namesOf g, nm ≠ "" ∧ noChar ' ' nm ∧ noChar '\n' nm) ∧
  (∀ v ∈ valuesOf g, v ≠ "" ∧ noChar '\n' v) ∧
  noChar '\n' g.data_filename

theorem filter_ne_empty_of_all {L : List String} (h : ∀ x ∈ L, x ≠ "") :
    L.filter (fun l => !(l == "")) = L :=
  List.filter_eq_self.mpr (fun a ha => by
    simp only [Bool.not_eq_eq_eq_not, Bool.not_true, beq_eq_false_iff_ne]
    exact h a ha)

theorem begin_line_ne_empty (f : String) : begin_line f ≠ "" :=
  append_ne_empty_left _ (append_ne_empty_left _ (by decide))

/-- Every row of the transposed columns draws its entries from the
original column values. -/
theorem row_values_mem {cols : List (List Value)} {n : Nat}
    (h : ∀ l ∈ cols, l.length = n) :
    ∀ r ∈ (List.range n).map (fun i => cols.map (fun l => l.getD i "")),
      ∀ v ∈ r, v ∈ cols.flatten := by
  intro r hr v hv
  obtain ⟨i, hi, rfl⟩ := List.mem_map.mp hr
  obtain ⟨l, hl, rfl⟩ := List.mem_map.mp hv
  have hilt : i < l.length := by rw [h l hl]; exact List.mem_range.mp hi
  rw [List.getD_eq_getElem l _ hilt]
  exact List.mem_flatten.mpr ⟨l, hl, List.getElem_mem hilt⟩

theorem listing_lines_form (hdr : String) (rowlines : List String) :
    listing_lines hdr rowlines = hdr :: rowlines ∨
    listing_lines hdr rowlines = hdr :: rowlines ++ [""] := by
  by_cases h : rowlines = []
  · subst h; right; rfl
  · left; rw [listing_lines, if_neg h]

/-- Core counting fact for a successful data block whose listing is a
header line plus `N` non-empty row lines (with or without a trailing
blank line): the whole returned string has `N + 3` non-empty lines and
its second line is the header. -/
theorem c1_core (g : LatexPlotGenerator) (hdr : String)
    (rowlines : List String) (N : Nat) (D : List String)
    (hD : data_listing g = Option.some D)
    (hform : D = hdr :: rowlines ∨ D = hdr :: rowlines ++ [""])
    (hn : rowlines.length = N)
    (hne : ∀ x ∈ rowlines, x ≠ "") (hnl : ∀ x ∈ rowlines, noChar '\n' x)
    (hh1 : hdr ≠ "") (hh2 : noChar '\n' hdr)
    (hf : noChar '\n' g.data_filename) :
    ∃ s, generate_data_block g = .ok s ∧ neLineCount s = N + 3 ∧
      (linesOf s).getD 1 "" = hdr := by
  have hclean : ∀ l ∈ D, noChar '\n' l := by
    intro l hl
    rcases hform with rfl | rfl
    · rcases List.mem_cons.mp hl with rfl | h2
      · exact hh2
      · exact hnl l h2
    · rcases List.mem_cons.mp hl with rfl | h2
      · exact hh2
      · rcases List.mem_append.mp h2 with h3 | h4
        · exact hnl l h3
        · simp only [List.mem_singleton] at h4; subst h4; decide
  obtain ⟨s, hs, hl⟩ := linesOf_data_block g D hD hclean hf
  have hfe : List.filter (fun l => !(l == "")) [end_line, ""] = [end_line] := by
    decide
  have hfb : List.filter (fun l => !(l == ""))
      [begin_line g.data_filename, hdr] = [begin_line g.data_filename, hdr] :=
    filter_ne_empty_of_all (by
      intro x hx
      rcases List.mem_cons.mp hx with rfl | h2
      · exact begin_line_ne_empty _
      · simp only [List.mem_singleton] at h2; subst h2; exact hh1)
  have hfr : List.filter (fun l => !(l == "")) rowlines = rowlines :=
    filter_ne_empty_of_all hne
  refine ⟨s, hs, ?_, ?_⟩
  · rw [neLineCount, hl]
    rcases hform with rfl | rfl
    · have hsplit : begin_line g.data_filename :: (hdr :: rowlines) ++
          [end_line, ""] =
          [begin_line g.data_filename, hdr] ++ rowlines ++ [end_line, ""] := by
        simp
      rw [hsplit, List.filter_append, List.filter_append, hfe, hfb, hfr]
      simp only [List.length_append, List.length_cons, List.length_nil, hn]
      omega
    · have hsplit : begin_line g.data_filename :: (hdr :: rowlines ++ [""]) ++
          [end_line, ""] =
          [begin_line g.data_filename, hdr] ++ rowlines ++ [""] ++
            [end_line, ""] := by
        simp
      rw [hsplit, List.filter_append, List.filter_append, List.filter_append,
        hfe, hfb, hfr]
      have hfz : List.filter (fun l => !(l == "")) [""] = [] := by decide
      rw [hfz]
      simp only [List.length_append, List.length_cons, List.length_nil, hn]
      omega
  · rw [hl]
    rcases hform with rfl | rfl
    · rfl
    · rfl

/-- Claim C1 (amended): for every well-shaped clean dataset with
`K ≥ 1` columns and `N` rows, the data block succeeds, the full returned string has exactly
`N + 3` non-empty lines (header, `N` rows, and the two wrapper lines),
its second line is the space-joined header whose space-split tokens are
exactly the column names in order, and there are `K` of them. -/
theorem dataBlock_lines_header (g : LatexPlotGenerator) (K N : Nat)
    (hK : 1 ≤ K) (hs : Shaped g K N) (hc : CleanData g) :
    ∃ s, generate_data_block g = .ok s ∧
      neLineCount s = N + 3 ∧
      (linesOf s).getD 1 "" = joinS " " (namesOf g) ∧
      wordsOf ((linesOf s).getD 1 "") = namesOf g ∧
      (namesOf g).length = K := by
  obtain ⟨hcn, hcv, hcf⟩ := hc
  cases hdata : g.data with
  | dict cols =>
    simp only [Shaped, hdata] at hs
    simp only [namesOf, hdata] at hcn ⊢
    simp only [valuesOf, hdata] at hcv
    obtain ⟨hKlen, hlen⟩ := hs
    have hcolsne : cols ≠ [] := by
      intro h0; rw [h0] at hKlen; simp at hKlen; omega
    have hnames_ne : cols.map (·.1) ≠ [] := by
      simpa using hcolsne
    have hh1 : joinS " " (cols.map (·.1)) ≠ "" :=
      joinS_ne_empty hnames_ne (fun x hx => (hcn x hx).1)
    have hh2 : noChar '\n' (joinS " " (cols.map (·.1))) :=
      noChar_joinS (by decide) (fun x hx => (hcn x hx).2.2)
    have hvals_ne : cols.map (·.2) ≠ [] := by simpa using hcolsne
    have hvlen : ∀ l ∈ cols.map (·.2), l.length = N := by
      intro l hl
      obtain ⟨kv, hkv, rfl⟩ := List.mem_map.mp hl
      exact hlen kv hkv
    have hzip := pyZip_eq hvals_ne hvlen
    have hrow : ∀ r ∈ pyZip (cols.map (·.2)),
        r ≠ [] ∧ (∀ v ∈ r, v ≠ "" ∧ noChar '\n' v) := by
      intro r hr
      rw [hzip] at hr
      constructor
      · obtain ⟨i, _, rfl⟩ := List.mem_map.mp hr
        intro h0
        have := congrArg List.length h0
        simp only [List.length_map, List.length_nil] at this
        rw [hKlen] at this
        omega
      · intro v hv
        exact hcv v (row_values_mem hvlen r hr v hv)
    have hrne : ∀ x ∈ (pyZip (cols.map (·.2))).map (fun row => joinS " " row),
        x ≠ "" := by
      intro x hx
      obtain ⟨r, hr, rfl⟩ := List.mem_map.mp hx
      exact joinS_ne_empty (hrow r hr).1 (fun v hv => ((hrow r hr).2 v hv).1)
    have hrnl : ∀ x ∈ (pyZip (cols.map (·.2))).map (fun row => joinS " " row),
        noChar '\n' x := by
      intro x hx
      obtain ⟨r, hr, rfl⟩ := List.mem_map.mp hx
      exact noChar_joinS (by decide) (fun v hv => ((hrow r hr).2 v hv).2)
    have hrn : ((pyZip (cols.map (·.2))).map (fun row => joinS " " row)).length
        = N := by
      rw [hzip]
      simp
    have hD : data_listing g = Option.some
        (listing_lines (joinS " " (cols.map (·.1)))
          ((pyZip (cols.map (·.2))).map (fun row => joinS " " row))) := by
      simp only [data_listing, hdata]
    obtain ⟨s, hsok, hcount, hsecond⟩ := c1_core g _ _ N _ hD
      (listing_lines_form _ _) hrn hrne hrnl hh1 hh2 hcf
    refine ⟨s, hsok, hcount, hsecond, ?_, ?_⟩
    · rw [hsecond]
      exact wordsOf_joinS hnames_ne (fun x hx => (hcn x hx).2.1)
    · simpa using hKlen
  | dataFrame cols =>
    simp only [Shaped, hdata] at hs
    simp only [namesOf, hdata] at hcn ⊢
    simp only [valuesOf, hdata] at hcv
    obtain ⟨hKlen, hlen⟩ := hs
    have hcolsne : cols ≠ [] := by
      intro h0; rw [h0] at hKlen; simp at hKlen; omega
    have hnames_ne : cols.map (·.1) ≠ [] := by
      simpa using hcolsne
    have hh1 : joinS " " (cols.map (·.1)) ≠ "" :=
      joinS_ne_empty hnames_ne (fun x hx => (hcn x hx).1)
    have hh2 : noChar '\n' (joinS " " (cols.map (·.1))) :=
      noChar_joinS (by decide) (fun x hx => (hcn x hx).2.2)
    have hvals_ne : cols.map (·.2) ≠ [] := by simpa using hcolsne
    have hvlen : ∀ l ∈ cols.map (·.2), l.length = N := by
      intro l hl
      obtain ⟨kv, hkv, rfl⟩ := List.mem_map.mp hl
      exact hlen kv hkv
    have hzip := pyZip_eq hvals_ne hvlen
    have hrow : ∀ r ∈ pyZip (cols.map (·.2)),
        r ≠ [] ∧ (∀ v ∈ r, v ≠ "" ∧ noChar '\n' v) := by
      intro r hr
      rw [hzip] at hr
      constructor
      · obtain ⟨i, _, rfl⟩ := List.mem_map.mp hr
        intro h0
        have := congrArg List.length h0
        simp only [List.length_map, List.length_nil] at this
        rw [hKlen] at this
        omega
      · intro v hv
        exact hcv v (row_values_mem hvlen r hr v hv)
    have hrne : ∀ x ∈ (pyZip (cols.map (·.2))).map (fun row => joinS " " row),
        x ≠ "" := by
      intro x hx
      obtain ⟨r, hr, rfl⟩ := List.mem_map.mp hx
      exact joinS_ne_empty (hrow r hr).1 (fun v hv => ((hrow r hr).2 v hv).1)
    have hrnl : ∀ x ∈ (pyZip (cols.map (·.2))).map (fun row => joinS " " row),
        noChar '\n' x := by
      intro x hx
      obtain ⟨r, hr, rfl⟩ := List.mem_map.mp hx
      exact noChar_joinS (by decide) (fun v hv => ((hrow r hr).2 v hv).2)
    have hrn : ((pyZip (cols.map (·.2))).map (fun row => joinS " " row)).length
        = N := by
      rw [hzip]
      simp
    have hD : data_listing g = Option.some
        ((joinS " " (cols.map (·.1)) ::
          (pyZip (cols.map (·.2))).map (fun row => joinS " " row) ++ [""])) := by
      simp only [data_listing, hdata]
    obtain ⟨s, hsok, hcount, hsecond⟩ := c1_core g _ _ N _ hD
      (Or.inr rfl) hrn hrne hrnl hh1 hh2 hcf
    refine ⟨s, hsok, hcount, hsecond, ?_, ?_⟩
    · rw [hsecond]
      exact wordsOf_joinS hnames_ne (fun x hx => (hcn x hx).2.1)
    · simpa using hKlen
  | ndarray rows =>
    simp only [Shaped, hdata] at hs
    simp only [namesOf, hdata] at hcn ⊢
    simp only [valuesOf, hdata] at hcv
    obtain ⟨hhne, hKlen, hNlen, hlen⟩ := hs
    cases hh : g.header with
    | none => exact absurd hh hhne
    | some hdr0 =>
      rw [hh] at hKlen hcn
      simp only [Option.getD_some] at hKlen hcn ⊢
      have hnames_ne : hdr0 ≠ [] := by
        intro h0; rw [h0] at hKlen; simp at hKlen; omega
      have hh1 : joinS " " hdr0 ≠ "" :=
        joinS_ne_empty hnames_ne (fun x hx => (hcn x hx).1)
      have hh2 : noChar '\n' (joinS " " hdr0) :=
        noChar_joinS (by decide) (fun x hx => (hcn x hx).2.2)
      have hrow : ∀ r ∈ rows, r ≠ [] ∧ (∀ v ∈ r, v ≠ "" ∧ noChar '\n' v) := by
        intro r hr
        constructor
        · intro h0
          have := hlen r hr
          rw [h0] at this
          simp at this
          omega
        · intro v hv
          exact hcv v (List.mem_flatten.mpr ⟨r, hr, hv⟩)
      have hrne : ∀ x ∈ rows.map (fun row => joinS " " row), x ≠ "" := by
        intro x hx
        obtain ⟨r, hr, rfl⟩ := List.mem_map.mp hx
        exact joinS_ne_empty (hrow r hr).1 (fun v hv => ((hrow r hr).2 v hv).1)
      have hrnl : ∀ x ∈ rows.map (fun row => joinS " " row), noChar '\n' x := by
        intro x hx
        obtain ⟨r, hr, rfl⟩ := List.mem_map.mp hx
        exact noChar_joinS (by decide) (fun v hv => ((hrow r hr).2 v hv).2)
      have hrn : (rows.map (fun row => joinS " " row)).length = N := by
        simp [hNlen]
      have hD : data_listing g = Option.some
          (listing_lines (joinS " " hdr0)
            (rows.map (fun row => joinS " " row))) := by
        simp only [data_listing, hdata, hh, Option.map_some']
      obtain ⟨s, hsok, hcount, hsecond⟩ := c1_core g _ _ N _ hD
        (listing_lines_form _ _) hrn hrne hrnl hh1 hh2 hcf
      refine ⟨s, hsok, hcount, hsecond, ?_, ?_⟩
      · rw [hsecond]
        exact wordsOf_joinS hnames_ne (fun x hx => (hcn x hx).2.1)
      · exact hKlen
  | pylist rows =>
    simp only [Shaped, hdata] at hs
    simp only [namesOf, hdata] at hcn ⊢
    simp only [valuesOf, hdata] at hcv
    obtain ⟨hhne, hKlen, hNlen, hlen⟩ := hs
    cases hh : g.header with
    | none => exact absurd hh hhne
    | some hdr0 =>
      rw [hh] at hKlen hcn
      simp only [Option.getD_some] at hKlen hcn ⊢
      have hnames_ne : hdr0 ≠ [] := by
        intro h0; rw [h0] at hKlen; simp at hKlen; omega
      have hh1 : joinS " " hdr0 ≠ "" :=
        joinS_ne_empty hnames_ne (fun x hx => (hcn x hx).1)
      have hh2 : noChar '\n' (joinS " " hdr0) :=
        noChar_joinS (by decide) (fun x hx => (hcn x hx).2.2)
      have hrow : ∀ r ∈ rows, r ≠ [] ∧ (∀ v ∈ r, v ≠ "" ∧ noChar '\n' v) := by
        intro r hr
        constructor
        · intro h0
          have := hlen r hr
          rw [h0] at this
          simp at this
          omega
        · intro v hv
          exact hcv v (List.mem_flatten.mpr ⟨r, hr, hv⟩)
      have hrne : ∀ x ∈ rows.map (fun row => joinS " " row), x ≠ "" := by
        intro x hx
        obtain ⟨r, hr, rfl⟩ := List.mem_map.mp hx
        exact joinS_ne_empty (hrow r hr).1 (fun v hv => ((hrow r hr).2 v hv).1)
      have hrnl : ∀ x ∈ rows.map (fun row => joinS " " row), noChar '\n' x := by
        intro x hx
        obtain ⟨r, hr, rfl⟩ := List.mem_map.mp hx
        exact noChar_joinS (by decide) (fun v hv => ((hrow r hr).2 v hv).2)
      have hrn : (rows.map (fun row => joinS " " row)).length = N := by
        simp [hNlen]
      have hD : data_listing g = Option.some
          (listing_lines (joinS " " hdr0)
            (rows.map (fun row => joinS " " row))) := by
        simp only [data_listing, hdata, hh, Option.map_some']
      obtain ⟨s, hsok, hcount, hsecond⟩ := c1_core g _ _ N _ hD
        (listing_lines_form _ _) hrn hrne hrnl hh1 hh2 hcf
      refine ⟨s, hsok, hcount, hsecond, ?_, ?_⟩
      · rw [hsecond]
        exact wordsOf_joinS hnames_ne (fun x hx => (hcn x hx).2.1)
      · exact hKlen
  | unsupported => simp only [Shaped, hdata] at hs

/-! ### Claim theorems: error classification, options rendering,
composition, save -/

/-- The string of a successful render, or `""` on an exception. -/
def okOr (r : Except PyError String) : String :=
  match r with
  | .ok s => s
  | .error _ => ""

/-- Claim C2: `generate_data_block` raises `TypeError` exactly on an
unsupported data shape, raises `ValueError` exactly on an array/list shape without a
header, and never raises on a dict or DataFrame. -/
theorem generate_data_block_error_classification (g : LatexPlotGenerator) :
    ((∃ m, generate_data_block g = .error (.TypeError m)) ↔
      g.data = PyData.unsupported) ∧
    ((∃ m, generate_data_block g = .error (.ValueError m)) ↔
      ((∃ rows, g.data = PyData.ndarray rows ∨ g.data = PyData.pylist rows) ∧
        g.header = Option.none)) ∧
    (∀ cols, (g.data = PyData.dict cols ∨ g.data = PyData.dataFrame cols) →
      ∃ s, generate_data_block g = .ok s) := by
  cases hdata : g.data with
  | dataFrame cols =>
    have hgdb : ∃ s, generate_data_block g = .ok s := by
      simp only [generate_data_block, data_str_of, hdata]
      exact ⟨_, rfl⟩
    obtain ⟨s, hgdb⟩ := hgdb
    refine ⟨⟨?_, ?_⟩, ⟨?_, ?_⟩, ?_⟩
    · rintro ⟨m, hm⟩; rw [hgdb] at hm; exact Except.noConfusion hm
    · intro h; exact PyData.noConfusion h
    · rintro ⟨m, hm⟩; rw [hgdb] at hm; exact Except.noConfusion hm
    · rintro ⟨⟨rows, hr | hr⟩, _⟩ <;> exact PyData.noConfusion hr
    · intro cols' _; exact ⟨s, hgdb⟩
  | dict cols =>
    have hgdb : ∃ s, generate_data_block g = .ok s := by
      simp only [generate_data_block, data_str_of, hdata]
      exact ⟨_, rfl⟩
    obtain ⟨s, hgdb⟩ := hgdb
    refine ⟨⟨?_, ?_⟩, ⟨?_, ?_⟩, ?_⟩
    · rintro ⟨m, hm⟩; rw [hgdb] at hm; exact Except.noConfusion hm
    · intro h; exact PyData.noConfusion h
    · rintro ⟨m, hm⟩; rw [hgdb] at hm; exact Except.noConfusion hm
    · rintro ⟨⟨rows, hr | hr⟩, _⟩ <;> exact PyData.noConfusion hr
    · intro cols' _; exact ⟨s, hgdb⟩
  | ndarray rows =>
    cases hh : g.header with
    | none =>
      have hgdb : generate_data_block g = .error (.ValueError
          "A header must be provided when data is a numpy array or list-of-lists.") := by
        simp only [generate_data_block, data_str_of, hdata, hh]
      refine ⟨⟨?_, ?_⟩, ⟨?_, ?_⟩, ?_⟩
      · rintro ⟨m, hm⟩; rw [hgdb] at hm; simp at hm
      · intro h; exact PyData.noConfusion h
      · intro _; exact ⟨⟨rows, Or.inl rfl⟩, rfl⟩
      · intro _; exact ⟨_, hgdb⟩
      · intro cols' h
        rcases h with h | h <;> exact PyData.noConfusion h
    | some hdr =>
      have hgdb : ∃ s, generate_data_block g = .ok s := by
        simp only [generate_data_block, data_str_of, hdata, hh]
        exact ⟨_, rfl⟩
      obtain ⟨s, hgdb⟩ := hgdb
      refine ⟨⟨?_, ?_⟩, ⟨?_, ?_⟩, ?_⟩
      · rintro ⟨m, hm⟩; rw [hgdb] at hm; exact Except.noConfusion hm
      · intro h; exact PyData.noConfusion h
      · rintro ⟨m, hm⟩; rw [hgdb] at hm; exact Except.noConfusion hm
      · rintro ⟨_, hnone⟩; exact Option.noConfusion hnone
      · intro cols' h
        rcases h with h | h <;> exact PyData.noConfusion h
  | pylist rows =>
    cases hh : g.header with
    | none =>
      have hgdb : generate_data_block g = .error (.ValueError
          "A header must be provided when data is a numpy array or list-of-lists.") := by
        simp only [generate_data_block, data_str_of, hdata, hh]
      refine ⟨⟨?_, ?_⟩, ⟨?_, ?_⟩, ?_⟩
      · rintro ⟨m, hm⟩; rw [hgdb] at hm; simp at hm
      · intro h; exact PyData.noConfusion h
      · intro _; exact ⟨⟨rows, Or.inr rfl⟩, rfl⟩
      · intro _; exact ⟨_, hgdb⟩
      · intro cols' h
        rcases h with h | h <;> exact PyData.noConfusion h
    | some hdr =>
      have hgdb : ∃ s, generate_data_block g = .ok s := by
        simp only [generate_data_block, data_str_of, hdata, hh]
        exact ⟨_, rfl⟩
      obtain ⟨s, hgdb⟩ := hgdb
      refine ⟨⟨?_, ?_⟩, ⟨?_, ?_⟩, ?_⟩
      · rintro ⟨m, hm⟩; rw [hgdb] at hm; exact Except.noConfusion hm
      · intro h; exact PyData.noConfusion h
      · rintro ⟨m, hm⟩; rw [hgdb] at hm; exact Except.noConfusion hm
      · rintro ⟨_, hnone⟩; exact Option.noConfusion hnone
      · intro cols' h
        rcases h with h | h <;> exact PyData.noConfusion h
  | unsupported =>
    have hgdb : generate_data_block g = .error (.TypeError
        "Unsupported data type. Provide a pandas DataFrame, dict, or numpy array/list-of-lists.") := by
      simp only [generate_data_block, data_str_of, hdata]
    refine ⟨⟨?_, ?_⟩, ⟨?_, ?_⟩, ?_⟩
    · intro _; rfl
    · intro _; exact ⟨_, hgdb⟩
    · rintro ⟨m, hm⟩; rw [hgdb] at hm; simp at hm
    · rintro ⟨⟨rows, hr | hr⟩, _⟩ <;> exact PyData.noConfusion hr
    · intro cols' h
      rcases h with h | h <;> exact PyData.noConfusion h

/-- The specified rendering of a style-options mapping, written from the
specification: in insertion order, a bare key for boolean true, nothing
for boolean false, a bare key for None or the empty string, and
`key=value` otherwise. -/
def option_tokens : List (String × OptValue) → List String
  | [] => []
  | (k, v) :: rest =>
    (match v with
     | OptValue.bool true => [k]
     | OptValue.bool false => []
     | OptValue.none => [k]
     | OptValue.str s => if s = "" then [k] else [k ++ "=" ++ s]) ++
    option_tokens rest

theorem format_options_foldl (opts : List (String × OptValue)) :
    ∀ acc : List String,
    opts.foldl (fun parts kv =>
      match kv.2 with
      | .bool b => if b then parts ++ [kv.1] else parts
      | .none => parts ++ [kv.1]
      | .str s => if s = "" then parts ++ [kv.1]
                  else parts ++ [kv.1 ++ "=" ++ s]) acc =
    acc ++ option_tokens opts := by
  induction opts with
  | nil => intro acc; simp [option_tokens]
  | cons kv rest ih =>
    intro acc
    obtain ⟨k, v⟩ := kv
    simp only [List.foldl_cons]
    cases v with
    | bool b =>
      cases b with
      | false =>
        rw [ih]
        simp [option_tokens]
      | true =>
        rw [ih]
        simp [option_tokens]
    | none =>
      rw [ih]
      simp [option_tokens]
    | str s =>
      by_cases hs : s = ""
      · simp only [if_pos hs]
        rw [ih]
        simp [option_tokens, if_pos hs]
      · simp only [if_neg hs]
        rw [ih]
        simp [option_tokens, if_neg hs]

/-- Claim C3: the options string of `_format_options` is exactly the
specified token list (bare key for boolean true, nothing for boolean
false, bare key for None or the empty string, `key=value` otherwise, in
insertion order) joined by comma-space. -/
theorem format_options_spec (options : List (String × OptValue)) :
    _format_options options = joinS ", " (option_tokens options) := by
  simp only [_format_options]
  by_cases he : options.isEmpty
  · rw [if_pos he]
    rw [List.isEmpty_iff.mp he]
    rfl
  · rw [if_neg he, format_options_foldl options [], List.nil_append]

/-- Claim C4: if building the document raises, `save` reports the
exception and the file system is returned untouched: the whole document is built
before the destination is opened, so nothing is created or written, and
(the embedding being pure) the builder state is unchanged, so the call
may be retried. -/
theorem save_error_writes_nothing (g : LatexPlotGenerator)
    (fs : List (String × String)) (e : PyError)
    (h : generate_data_block g = .error e) :
    generate_latex_code g = .error e ∧ save g fs = (.error e, fs) := by
  have h2 : generate_latex_code g = .error e := by
    simp only [generate_latex_code, h]
  exact ⟨h2, by simp only [save, h2]⟩

/-- Claim C8: `generate_latex_code` is the data block, a separating
newline, and the tikz block; being a pure function of the builder record, repeated
calls on an unchanged builder give this same string. -/
theorem build_is_composition (g : LatexPlotGenerator) (s : String)
    (h : generate_data_block g = .ok s) :
    generate_latex_code g = .ok (s ++ "\n" ++ generate_tikz_picture g) := by
  simp only [generate_latex_code, h]

/-- Modelled from the claim: the row-major list-of-lists obtained by
transposing the columns of a name-to-sequence mapping (one row per index
of the common column length, read off the first column). -/
def transpose_of_cols (cols : List (String × List Value)) : List (List Value) :=
  (List.range (match cols with | [] => 0 | c :: _ => c.2.length)).map
    (fun i => cols.map (fun c => c.2.getD i ""))

/-- Claim C9: feeding a dict of equal-length columns and feeding its
transposed row-major list (with the dict's keys as header) produce the
same data block. -/
theorem dict_eq_transposed_list (cols : List (String × List Value))
    (fdat flat : String) (N : Nat) (h : ∀ c ∈ cols, c.2.length = N) :
    generate_data_block
      { data := PyData.dict cols, data_filename := fdat,
        latex_filename := flat, header := Option.some (cols.map (·.1)) } =
    generate_data_block
      { data := PyData.pylist (transpose_of_cols cols),
        data_filename := fdat, latex_filename := flat,
        header := Option.some (cols.map (·.1)) } := by
  cases cols with
  | nil => rfl
  | cons c0 rest =>
    have hzip : pyZip ((c0 :: rest).map (·.2)) = transpose_of_cols (c0 :: rest) := by
      rw [@pyZip_eq ((c0 :: rest).map (·.2)) c0.2.length (by simp)
        (by
          intro l hl
          obtain ⟨c, hc, rfl⟩ := List.mem_map.mp hl
          rw [h c hc, h c0 (by simp)])]
      show _ = (List.range c0.2.length).map
        (fun i => (c0 :: rest).map (fun c => c.2.getD i ""))
      apply List.map_congr_left
      intro i _
      rw [List.map_map]
      rfl
    simp only [generate_data_block, data_str_of, hzip]

/-! ### Recognizing legend and comment lines -/

/-- `p` is a prefix of `s` (character-wise). -/
def startsWithS (p s : String) : Bool := p.toList.isPrefixOf s.toList

/-- The fixed opening of every `\addlegendentry` line. -/
def legend_mark : String := "    \\addlegendentry\x7b"

/-- The fixed opening of every series comment line. -/
def comment_mark : String := "    % "

theorem startsWithS_append (p r : String) : startsWithS p (p ++ r) = true := by
  simp only [startsWithS, toList_append, List.isPrefixOf_iff_prefix]
  exact List.prefix_append _ _

theorem startsWithS_false (p s : String) (i : Nat) (hip : i < p.toList.length)
    (hne : p.toList.getD i ' ' ≠ s.toList.getD i ' ') :
    startsWithS p s = false := by
  rw [startsWithS]
  by_contra hb
  have hb' : p.toList.isPrefixOf s.toList = true := by
    revert hb; cases (p.toList.isPrefixOf s.toList) <;> simp
  have hpre : p.toList <+: s.toList := List.isPrefixOf_iff_prefix.mp hb'
  have hlen : i < s.toList.length := Nat.lt_of_lt_of_le hip hpre.length_le
  rw [List.getD_eq_getElem _ _ hip, List.getD_eq_getElem _ _ hlen] at hne
  exact hne (hpre.getElem hip)

theorem legend_line_mark (l : PlotLine) :
    legend_line l = legend_mark ++ (l.legend ++ "\x7d;") := by
  apply toList_inj
  simp only [legend_line, legend_mark, toList_append, List.append_assoc]

theorem startsWithS_legend_line (l : PlotLine) :
    startsWithS legend_mark (legend_line l) = true := by
  rw [legend_line_mark]
  exact startsWithS_append _ _

theorem startsWithS_legend_axis (kv : String × String) :
    startsWithS legend_mark (axis_line kv) = false := by
  apply startsWithS_false _ _ 4 (by decide)
  have h6 : ("      " : String).toList = [' ', ' ', ' ', ' ', ' ', ' '] := rfl
  simp only [axis_line, toList_append, List.append_assoc, h6]
  rw [List.getD_append _ _ _ _ (by decide)]
  decide

theorem startsWithS_legend_comment (c : String) :
    startsWithS legend_mark (comment_line c) = false := by
  apply startsWithS_false _ _ 4 (by decide)
  have h6 : ("    % " : String).toList = [' ', ' ', ' ', ' ', '%', ' '] := rfl
  simp only [comment_line, toList_append, h6]
  rw [List.getD_append _ _ _ _ (by decide)]
  decide

theorem startsWithS_legend_plot (fname : String) (l : PlotLine) :
    startsWithS legend_mark (plot_cmd_line fname l) = false := by
  apply startsWithS_false _ _ 8 (by decide)
  have h13 : ("    \\addplot[" : String).toList =
      [' ', ' ', ' ', ' ', '\\', 'a', 'd', 'd', 'p', 'l', 'o', 't', '['] := rfl
  simp only [plot_cmd_line, toList_append, List.append_assoc, h13]
  rw [List.getD_append _ _ _ _ (by decide)]
  decide

theorem startsWithS_comment_line (c : String) :
    startsWithS comment_mark (comment_line c) = true :=
  startsWithS_append comment_mark c

theorem startsWithS_comment_axis (kv : String × String) :
    startsWithS comment_mark (axis_line kv) = false := by
  apply startsWithS_false _ _ 4 (by decide)
  have h6 : ("      " : String).toList = [' ', ' ', ' ', ' ', ' ', ' '] := rfl
  simp only [axis_line, toList_append, List.append_assoc, h6]
  rw [List.getD_append _ _ _ _ (by decide)]
  decide

theorem startsWithS_comment_plot (fname : String) (l : PlotLine) :
    startsWithS comment_mark (plot_cmd_line fname l) = false := by
  apply startsWithS_false _ _ 4 (by decide)
  have h13 : ("    \\addplot[" : String).toList =
      [' ', ' ', ' ', ' ', '\\', 'a', 'd', 'd', 'p', 'l', 'o', 't', '['] := rfl
  simp only [plot_cmd_line, toList_append, List.append_assoc, h13]
  rw [List.getD_append _ _ _ _ (by decide)]
  decide

theorem startsWithS_comment_legend (l : PlotLine) :
    startsWithS comment_mark (legend_line l) = false := by
  apply startsWithS_false _ _ 4 (by decide)
  have hm : (legend_mark : String).toList =
      [' ', ' ', ' ', ' ', '\\', 'a', 'd', 'd', 'l', 'e', 'g', 'e', 'n', 'd',
       'e', 'n', 't', 'r', 'y', '\x7b'] := rfl
  rw [legend_line_mark]
  simp only [toList_append, hm]
  rw [List.getD_append _ _ _ _ (by decide)]
  decide

theorem filter_legend_series (fname : String) (l : PlotLine) :
    (series_lines fname l).filter (fun s => startsWithS legend_mark s) =
      [legend_line l] := by
  have hz : startsWithS legend_mark "" = false := by decide
  rw [series_lines]
  by_cases h : l.comment = ""
  · rw [if_pos h]
    simp only [List.nil_append, List.filter_cons, List.filter_nil,
      startsWithS_legend_plot, startsWithS_legend_line, hz]
    rfl
  · rw [if_neg h]
    simp only [List.singleton_append, List.filter_cons, List.filter_nil,
      startsWithS_legend_comment, startsWithS_legend_plot,
      startsWithS_legend_line, hz]
    rfl

theorem filter_comment_series (fname : String) (l : PlotLine) :
    (series_lines fname l).filter (fun s => startsWithS comment_mark s) =
      if l.comment = "" then [] else [comment_line l.comment] := by
  have hz : startsWithS comment_mark "" = false := by decide
  rw [series_lines]
  by_cases h : l.comment = ""
  · rw [if_pos h]
    simp only [List.nil_append, List.filter_cons, List.filter_nil,
      startsWithS_comment_plot, startsWithS_comment_legend, hz]
    rfl
  · rw [if_neg h]
    simp only [List.singleton_append, List.filter_cons, List.filter_nil,
      startsWithS_comment_line, startsWithS_comment_plot,
      startsWithS_comment_legend, hz]
    rfl

theorem flatten_map_singleton {α β : Type} (f : α → β) (L : List α) :
    (L.map (fun x => [f x])).flatten = L.map f := by
  induction L with
  | nil => rfl
  | cons a rest ih => simp [ih]

theorem flatten_map_if_singleton {α β : Type} (p : α → Prop) [DecidablePred p]
    (f : α → β) (L : List α) :
    (L.map (fun x => if p x then [] else [f x])).flatten =
      (L.filter (fun x => !(decide (p x)))).map f := by
  induction L with
  | nil => rfl
  | cons a rest ih =>
    by_cases h : p a
    · simp [h, ih]
    · simp [h, ih]

/-- Claim C5: adding series `M` times yields exactly `M` legend-entry
lines in call order; each series contributes an optional comment line, one plot
command line (naming its x-column, y-column and the data filename) and
one legend line, in that order; and in the built document the data
block precedes the chart block, whose axis-options section precedes all
series commands. -/
theorem chart_series_structure (g : LatexPlotGenerator) (D : List String)
    (hc : CleanChart g) (hD : data_listing g = Option.some D)
    (hclean : ∀ l ∈ D, noChar '\n' l) :
    ((linesOf (generate_tikz_picture g)).filter
        (fun s => startsWithS legend_mark s) = g.plot_lines.map legend_line) ∧
    (linesOf (generate_tikz_picture g) =
      tikz_head_lines ++ axis_lines g.axis_options ++ ["    ]"] ++
        (g.plot_lines.map (series_lines g.data_filename)).flatten ++
        tikz_tail_lines ++ [""]) ∧
    (∃ code, generate_latex_code g = .ok code ∧
      linesOf code = (begin_line g.data_filename :: D ++ [end_line]) ++ [""] ++
        tikz_lines g ++ [""]) := by
  have h2 : linesOf (generate_tikz_picture g) = tikz_lines g ++ [""] :=
    linesOf_tikz g hc
  refine ⟨?_, ?_, ?_⟩
  · rw [h2, tikz_lines]
    simp only [List.append_assoc, List.filter_append]
    have hh : List.filter (fun s => startsWithS legend_mark s)
        tikz_head_lines = [] := by decide
    have ha : List.filter (fun s => startsWithS legend_mark s)
        (axis_lines g.axis_options) = [] := by
      rw [axis_lines]
      by_cases he : g.axis_options = []
      · rw [if_pos he]; decide
      · rw [if_neg he]
        refine List.filter_eq_nil_iff.mpr ?_
        intro a ha
        obtain ⟨kv, _, rfl⟩ := List.mem_map.mp ha
        simp [startsWithS_legend_axis]
    have hm : List.filter (fun s => startsWithS legend_mark s)
        ["    ]"] = [] := by decide
    have hflat : List.filter (fun s => startsWithS legend_mark s)
        ((g.plot_lines.map (series_lines g.data_filename)).flatten) =
        g.plot_lines.map legend_line := by
      rw [List.filter_flatten, List.map_map]
      rw [show List.map ((fun l => List.filter
            (fun s => startsWithS legend_mark s) l) ∘
            series_lines g.data_filename) g.plot_lines =
          List.map (fun l => [legend_line l]) g.plot_lines from
        List.map_congr_left
          (fun l _ => filter_legend_series g.data_filename l)]
      exact flatten_map_singleton legend_line g.plot_lines
    have ht : List.filter (fun s => startsWithS legend_mark s)
        tikz_tail_lines = [] := by decide
    have hz : List.filter (fun s => startsWithS legend_mark s) [""] = [] := by
      decide
    rw [hh, ha, hm, hflat, ht, hz]
    simp
  · rw [h2, tikz_lines]
  · have hdb := generate_data_block_eq g D hD
    have hcl2 : ∀ l ∈ (begin_line g.data_filename :: D ++ [end_line]) ++ [""] ++
        tikz_lines g, noChar '\n' l := by
      intro l hl
      rcases List.mem_append.mp hl with hl1 | hl2
      · rcases List.mem_append.mp hl1 with hl3 | hl4
        · rcases List.mem_cons.mp hl3 with rfl | hl5
          · unfold begin_line
            rw [noChar_append, noChar_append]
            exact ⟨⟨by decide, hc.2.2⟩, by decide⟩
          · rcases List.mem_append.mp hl5 with hl6 | hl7
            · exact hclean l hl6
            · simp only [List.mem_singleton] at hl7; subst hl7; decide
        · simp only [List.mem_singleton] at hl4; subst hl4; decide
      · exact tikz_lines_clean g hc l hl2
    refine ⟨unlines (begin_line g.data_filename :: D ++ [end_line]) ++ "\n" ++
      generate_tikz_picture g, ?_, ?_⟩
    · simp only [generate_latex_code, hdb]
    · rw [generate_tikz_picture_eq]
      have hrec : unlines (begin_line g.data_filename :: D ++ [end_line]) ++
          "\n" ++ unlines (tikz_lines g) =
          unlines ((begin_line g.data_filename :: D ++ [end_line]) ++ [""] ++
            tikz_lines g) := by
        rw [unlines_append, unlines_append]
        apply toList_inj
        simp only [toList_append, unlines, unlines_append, List.append_eq,
          toList_empty, List.append_assoc, List.append_nil, List.nil_append]
      rw [hrec, linesOf_unlines hcl2]

/-- Claim C6 (amended): with a non-empty axis-options mapping, the
chart block carries one line per entry, in insertion order, each
`      key=value,` ending in a comma (an empty mapping instead leaves
one blank line in the options section). -/
theorem axis_options_lines (g : LatexPlotGenerator) (hc : CleanChart g)
    (hne : g.axis_options ≠ []) :
    linesOf (generate_tikz_picture g) =
      tikz_head_lines ++ g.axis_options.map axis_line ++ ["    ]"] ++
        (g.plot_lines.map (series_lines g.data_filename)).flatten ++
        tikz_tail_lines ++ [""] ∧
    ∀ kv ∈ g.axis_options,
      axis_line kv = "      " ++ kv.1 ++ "=" ++ kv.2 ++ "," ∧
      (axis_line kv).toList.getLast? = some ',' := by
  constructor
  · rw [linesOf_tikz g hc, tikz_lines, axis_lines, if_neg hne]
  · intro kv _
    refine ⟨rfl, ?_⟩
    show (("      " ++ kv.1 ++ "=" ++ kv.2 ++ ",").toList).getLast? = some ','
    rw [toList_append]
    rw [show ("," : String).toList = [','] from rfl]
    exact List.getLast?_concat _

/-- Claim C10: the chart block carries a comment line exactly for the
series whose comment string is non-empty, in call order; a series added
with an empty-string comment (the default) contributes none. -/
theorem comment_lines_iff_nonempty (g : LatexPlotGenerator)
    (hc : CleanChart g) :
    (linesOf (generate_tikz_picture g)).filter
        (fun s => startsWithS comment_mark s) =
      (g.plot_lines.filter (fun l => !(decide (l.comment = "")))).map
        (fun l => comment_line l.comment) := by
  rw [linesOf_tikz g hc, tikz_lines]
  simp only [List.append_assoc, List.filter_append]
  have hh : List.filter (fun s => startsWithS comment_mark s)
      tikz_head_lines = [] := by decide
  have ha : List.filter (fun s => startsWithS comment_mark s)
      (axis_lines g.axis_options) = [] := by
    rw [axis_lines]
    by_cases he : g.axis_options = []
    · rw [if_pos he]; decide
    · rw [if_neg he]
      refine List.filter_eq_nil_iff.mpr ?_
      intro a ha
      obtain ⟨kv, _, rfl⟩ := List.mem_map.mp ha
      simp [startsWithS_comment_axis]
  have hm : List.filter (fun s => startsWithS comment_mark s)
      ["    ]"] = [] := by decide
  have hflat : List.filter (fun s => startsWithS comment_mark s)
      ((g.plot_lines.map (series_lines g.data_filename)).flatten) =
      (g.plot_lines.filter (fun l => !(decide (l.comment = "")))).map
        (fun l => comment_line l.comment) := by
    rw [List.filter_flatten, List.map_map]
    rw [show List.map ((fun l => List.filter
          (fun s => startsWithS comment_mark s) l) ∘
          series_lines g.data_filename) g.plot_lines =
        List.map (fun l => if l.comment = "" then []
          else [comment_line l.comment]) g.plot_lines from
      List.map_congr_left
        (fun l _ => filter_comment_series g.data_filename l)]
    exact flatten_map_if_singleton (fun l => l.comment = "")
      (fun l => comment_line l.comment) g.plot_lines
  have ht : List.filter (fun s => startsWithS comment_mark s)
      tikz_tail_lines = [] := by decide
  have hz : List.filter (fun s => startsWithS comment_mark s) [""] = [] := by
    decide
  rw [hh, ha, hm, hflat, ht, hz]
  simp

/-- Claim C7: splitting any line of a rendered data block on the space
delimiter and re-joining the tokens with the same delimiter reproduces
the line exactly (the join is a left inverse of the split; space-free values
additionally guarantee that the tokens are the stringified values
themselves). -/
theorem data_line_split_join_roundtrip (g : LatexPlotGenerator)
    (hsp : ∀ v ∈ valuesOf g, noChar ' ' v) (s : String)
    (hok : generate_data_block g = .ok s) :
    ∀ l ∈ linesOf s, joinS " " (wordsOf l) = l :=
  fun l _ => joinS_wordsOf l

/-! ### Concrete instances -/

/-- A dict-backed generator with two columns, three rows, two axis
options and two plot lines (one with a comment and options, one bare). -/
def gEx : LatexPlotGenerator :=
  { data := PyData.dict
      [("sigma", ["0.1", "0.2", "0.3"]), ("callFD", ["0.01", "0.02", "0.03"])],
    data_filename := "temp_data.txt", latex_filename := "plot.tex",
    axis_options := [("title", "\x7bT\x7d"), ("xmin", "0")],
    plot_lines :=
      [{ table_x := "sigma", table_y := "callFD", legend := "CallFD",
         options := [("mark", OptValue.str "o"), ("thick", OptValue.bool true)],
         comment := "Crank-Nicolson" },
       { table_x := "sigma", table_y := "callFD", legend := "PutFD",
         options := [], comment := "" }] }

/-- A row-major list generator without a header. -/
def gNoHdr : LatexPlotGenerator :=
  { data := PyData.pylist [["1", "2"], ["3", "4"]],
    data_filename := "d.txt", latex_filename := "f.tex" }

/-- A dict generator with no axis options and no plot lines. -/
def gNoAxis : LatexPlotGenerator :=
  { data := PyData.dict [("x", ["1"])],
    data_filename := "d.txt", latex_filename := "f.tex" }

/-- Witness: the concrete two-column, three-row dict dataset. -/
theorem dataBlock_lines_header_witness :
    ∃ s, generate_data_block gEx = .ok s ∧
      neLineCount s = 3 + 3 ∧
      (linesOf s).getD 1 "" = joinS " " (namesOf gEx) ∧
      wordsOf ((linesOf s).getD 1 "") = namesOf gEx ∧
      (namesOf gEx).length = 2 :=
  dataBlock_lines_header gEx 2 3 (by decide)
    (by exact ⟨rfl, by decide⟩) (by exact ⟨by decide, by decide, by decide⟩)

/-- The original count: the string returned by `generate_data_block`
also carries the two `filecontents*` wrapper lines, so a one-column,
three-row dataset yields 6 non-empty lines, not `N + 1 = 4`, and the
first line of the returned string is the wrapper, not the header. -/
theorem dataBlock_lines_header_counterexample :
    neLineCount (okOr (generate_data_block gEx)) = 6 ∧
    ¬ neLineCount (okOr (generate_data_block gEx)) = 3 + 1 ∧
    wordsOf ((linesOf (okOr (generate_data_block gEx))).getD 0 "") ≠
      ["sigma", "callFD"] := by decide

/-- Witness: a dict-shaped dataset never raises. -/
theorem generate_data_block_error_classification_witness :
    ∃ s, generate_data_block gEx = .ok s :=
  (generate_data_block_error_classification gEx).2.2
    [("sigma", ["0.1", "0.2", "0.3"]), ("callFD", ["0.01", "0.02", "0.03"])]
    (Or.inl rfl)

/-- Witness: a missing header on a row-major list aborts `save` with the
file system untouched. -/
theorem save_error_writes_nothing_witness :
    generate_latex_code gNoHdr = .error (PyError.ValueError
      "A header must be provided when data is a numpy array or list-of-lists.") ∧
    save gNoHdr [("f.tex", "old")] = (.error (PyError.ValueError
      "A header must be provided when data is a numpy array or list-of-lists."),
      [("f.tex", "old")]) :=
  save_error_writes_nothing gNoHdr [("f.tex", "old")] _ rfl

/-- Witness: the concrete generator's chart block has exactly its two
legend lines in call order, the full line decomposition, and the built
document lists the data lines before the chart lines. -/
theorem chart_series_structure_witness :
    ((linesOf (generate_tikz_picture gEx)).filter
        (fun s => startsWithS legend_mark s) = gEx.plot_lines.map legend_line) ∧
    (linesOf (generate_tikz_picture gEx) =
      tikz_head_lines ++ axis_lines gEx.axis_options ++ ["    ]"] ++
        (gEx.plot_lines.map (series_lines gEx.data_filename)).flatten ++
        tikz_tail_lines ++ [""]) ∧
    (∃ code, generate_latex_code gEx = .ok code ∧
      linesOf code = (begin_line gEx.data_filename ::
        ["sigma callFD", "0.1 0.01", "0.2 0.02", "0.3 0.03"] ++ [end_line]) ++
        [""] ++ tikz_lines gEx ++ [""]) :=
  chart_series_structure gEx
    ["sigma callFD", "0.1 0.01", "0.2 0.02", "0.3 0.03"]
    ⟨by decide, by decide, by decide⟩ (by decide) (by decide)

/-- Witness: the concrete generator's two axis options render as two
comma-terminated lines. -/
theorem axis_options_lines_witness :
    linesOf (generate_tikz_picture gEx) =
      tikz_head_lines ++ gEx.axis_options.map axis_line ++ ["    ]"] ++
        (gEx.plot_lines.map (series_lines gEx.data_filename)).flatten ++
        tikz_tail_lines ++ [""] ∧
    ∀ kv ∈ gEx.axis_options,
      axis_line kv = "      " ++ kv.1 ++ "=" ++ kv.2 ++ "," ∧
      (axis_line kv).toList.getLast? = some ',' :=
  axis_options_lines gEx ⟨by decide, by decide, by decide⟩ (by decide)

/-- The claim fails for an empty axis mapping: the options section then
holds one blank line (the joined empty string), where the claim predicts
no line at all (the next line would be the closing bracket). -/
theorem axis_options_lines_counterexample :
    gNoAxis.axis_options = [] ∧
    (linesOf (generate_tikz_picture gNoAxis)).getD 5 "" = "" ∧
    (linesOf (generate_tikz_picture gNoAxis)).getD 5 "" ≠ "    ]" := by decide

/-- Witness: a concrete data line of the concrete dataset round-trips. -/
theorem data_line_split_join_roundtrip_witness :
    joinS " " (wordsOf "0.1 0.01") = "0.1 0.01" :=
  data_line_split_join_roundtrip gEx (by decide)
    (okOr (generate_data_block gEx)) rfl "0.1 0.01" (by decide)

/-- Witness: the built document of the concrete generator is its data
block, a newline, and its chart block. -/
theorem build_is_composition_witness :
    generate_latex_code gEx = .ok (okOr (generate_data_block gEx) ++ "\n" ++
      generate_tikz_picture gEx) :=
  build_is_composition gEx (okOr (generate_data_block gEx)) rfl

/-- Witness: a concrete two-column dict equals its transposed
list-of-lists rendering. -/
theorem dict_eq_transposed_list_witness :
    generate_data_block
      { data := PyData.dict [("a", ["1", "2"]), ("b", ["3", "4"])],
        data_filename := "d.txt", latex_filename := "f.tex",
        header := Option.some ([("a", ["1", "2"]), ("b", ["3", "4"])].map (·.1)) } =
    generate_data_block
      { data := PyData.pylist
          (transpose_of_cols [("a", ["1", "2"]), ("b", ["3", "4"])]),
        data_filename := "d.txt", latex_filename := "f.tex",
        header := Option.some ([("a", ["1", "2"]), ("b", ["3", "4"])].map (·.1)) } :=
  dict_eq_transposed_list [("a", ["1", "2"]), ("b", ["3", "4"])]
    "d.txt" "f.tex" 2 (by decide)

/-- Witness: of the two concrete plot lines, only the commented one
contributes a comment line. -/
theorem comment_lines_iff_nonempty_witness :
    (linesOf (generate_tikz_picture gEx)).filter
        (fun s => startsWithS comment_mark s) =
      (gEx.plot_lines.filter (fun l => !(decide (l.comment = "")))).map
        (fun l => comment_line l.comment) :=
  comment_lines_iff_nonempty gEx ⟨by decide, by decide, by decide⟩
